import Mathlib

/-!
Verification of the agent-reasoning translation core of the `codex` TUI:
a shallow embedding of `core/src/translation/mod.rs`,
`core/src/translation/external_command.rs` and
`tui/src/chatwidget/agent_reasoning_translation.rs` as pure Lean
functions, followed by theorems about the orchestrator state machine,
the bounded process runner and the translation service.

Modelling conventions:
* machine integers (`u64`, `usize`) are `Nat` with explicit saturation
  where the source saturates;
* wall-clock instants are `Nat` parameters (`now`), deadlines are `Nat`;
* the process environment variable read is an `Option String` parameter;
* the external process is a `ProcBehavior` record (its stdout/stderr
  chunk sequences and exit status) so that the in-deadline path of the
  async runner becomes a pure function;
* library functions external to the repository (serde JSON parsing,
  UTF-8-lossy decoding) are explicit function parameters;
* UI side effects (history-cell insertions, task spawns, frame
  scheduling) are recorded in an explicit event list.
-/

namespace Codex

/-- Maximum value of a Rust `u64`. -/
def U64_MAX : Nat := 2 ^ 64 - 1

/-- Model of Rust `str::trim` on a character list: drop whitespace from
both ends. -/
def trimChars (cs : List Char) : List Char :=
  ((cs.dropWhile Char.isWhitespace).reverse.dropWhile Char.isWhitespace).reverse

/-- Model of Rust `str::trim` (kept kernel-computable, unlike the
library `String.trim`). -/
def strTrim (s : String) : String :=
  String.mk (trimChars s.data)

/-- Rust `u64::saturating_add(1)` on a value already below `U64_MAX`. -/
def satAdd1 (n : Nat) : Nat := min (n + 1) U64_MAX

/-- Accumulator loop of Rust `u64::from_str`: consume decimal digits,
failing on any non-digit character. -/
def parseU64Digits : List Char → Nat → Option Nat
  | [], acc => some acc
  | c :: rest, acc =>
    if c.isDigit then parseU64Digits rest (acc * 10 + (c.toNat - 48)) else none

/-- Model of Rust `str::parse::<u64>()`: optional leading `+`, then one
or more decimal digits, rejecting the empty string and overflow. -/
def parseU64 (s : String) : Option Nat :=
  let cs := s.toList
  let cs := match cs with
    | '+' :: rest => rest
    | other => other
  if cs.isEmpty then none
  else
    match parseU64Digits cs 0 with
    | some v => if v ≤ U64_MAX then some v else none
    | none => none

/-- Index of the first occurrence of `pat` as a contiguous sublist of
`cs` (model of Rust `str::find` for a literal pattern, with positions
counted in characters). -/
def findSubstring (pat : List Char) : List Char → Option Nat
  | [] => if pat = [] then some 0 else none
  | c :: rest =>
    if pat.isPrefixOf (c :: rest) then some 0
    else (findSubstring pat rest).map (· + 1)

/-- Embedding of `extract_reasoning_body_for_translation`
(`agent_reasoning_translation.rs`): trim the full reasoning markdown,
find the first `**` pair, and return the trimmed-start text after the
closing marker, or `none` when there is no pair or nothing after it. -/
def extract_reasoning_body_for_translation (full_reasoning_markdown : String) : Option String :=
  let t := trimChars full_reasoning_markdown.data
  match findSubstring ['*', '*'] t with
  | none => none
  | some opn =>
    let afterOpen := t.drop (opn + 2)
    match findSubstring ['*', '*'] afterOpen with
    | none => none
    | some close =>
      let afterCloseIdx := opn + 2 + close + 2
      if t.length ≤ afterCloseIdx then none
      else
        let bodyChars := (t.drop afterCloseIdx).dropWhile Char.isWhitespace
        if bodyChars.isEmpty then none else some (String.mk bodyChars)

/-- Modelled from the spec: `extract_first_bold` lives in the chatwidget
module, which is not among the provided sources. The spec defines the
bold-leading title as "text between the first matched bold-marker pair
in a markdown buffer"; no claim is decided by its internal details. -/
def extract_first_bold (s : String) : Option String :=
  let cs := s.toList
  match findSubstring ['*', '*'] cs with
  | none => none
  | some opn =>
    let afterOpen := cs.drop (opn + 2)
    (findSubstring ['*', '*'] afterOpen).map fun close => String.mk (afterOpen.take close)

/-- Embedding of `format_bilingual_title` (`translation/mod.rs`). -/
def format_bilingual_title (original translated : String) : String :=
  original ++ "(" ++ translated ++ ")"

/-- Character-taking loop of `preview_bytes` (`translation/mod.rs`):
push up to `fuel` characters; if characters remain once the budget is
exhausted, push a single ellipsis character. -/
def previewTake : Nat → List Char → List Char
  | _, [] => []
  | 0, _ :: _ => ['…']
  | fuel + 1, c :: rest => c :: previewTake fuel rest

/-- Character budget of `preview_bytes` (`MAX_CHARS`). -/
def PREVIEW_MAX_CHARS : Nat := 300

/-- Trim-and-truncate step of `preview_bytes` on an already decoded
string. -/
def previewString (s : String) : String :=
  String.mk (previewTake PREVIEW_MAX_CHARS (trimChars s.data))

/-- Embedding of `preview_bytes` (`translation/mod.rs`); `decode` stands
for the library function `String::from_utf8_lossy`. -/
def preview_bytes (decode : List Nat → String) (bytes : List Nat) : String :=
  previewString (decode bytes)

/-- Embedding of `TranslationError` (`translation/mod.rs`). Byte counts
are `Nat`; the exit code is `Option Int` (Rust `Option<i32>`, `none`
when the child was killed by a signal). -/
inductive TranslationError where
  | emptyCommand
  | serializeRequest
  | spawn
  | writeStdin
  | readOutput
  | outputTooLarge (stream : String) (limit_bytes : Nat)
  | timeout (timeout_ms : Nat)
  | nonZeroExit (code : Option Int) (stderr_preview : String) (stdout_preview : String)
  | invalidJson (stdout_preview : String)
  | schemaVersionMismatch (expected : Nat) (actual : Nat)
  | emptyTranslation
deriving DecidableEq, Repr

/-- Embedding of `TRANSLATION_SCHEMA_VERSION` (`translation/mod.rs`). -/
def TRANSLATION_SCHEMA_VERSION : Nat := 1

/-- Embedding of `TranslationKind` (`translation/mod.rs`). -/
inductive TranslationKind where
  | agentReasoningTitle
  | agentReasoningBody
deriving DecidableEq, Repr

/-- Embedding of `TranslationKind::as_wire_value`. -/
def TranslationKind.as_wire_value : TranslationKind → String
  | .agentReasoningTitle => "agent_reasoning_title"
  | .agentReasoningBody => "agent_reasoning_body"

/-- Embedding of `TranslationFormat` (`translation/mod.rs`). -/
inductive TranslationFormat where
  | plain
  | markdown
deriving DecidableEq, Repr

/-- Embedding of `TranslationKind::format`. -/
def TranslationKind.format : TranslationKind → TranslationFormat
  | .agentReasoningTitle => .plain
  | .agentReasoningBody => .markdown

/-- Embedding of `TranslationRequest` (`translation/mod.rs`). -/
structure TranslationRequest where
  schema_version : Nat
  kind : String
  format : TranslationFormat
  source_language : String
  target_language : String
  text : String
deriving DecidableEq, Repr

/-- Embedding of `TranslationResponse` (`translation/mod.rs`). -/
structure TranslationResponse where
  schema_version : Nat
  text : String
deriving DecidableEq, Repr

/-- Embedding of `AgentReasoningTranslationConfig`
(`config/types.rs`, used by both the service and the orchestrator);
durations are carried in milliseconds. -/
structure AgentReasoningTranslationConfig where
  command : List String
  timeout_ms : Nat
  ui_max_wait_ms : Nat
deriving DecidableEq, Repr

/-- Embedding of `CommandOutput` (`external_command.rs`); bytes are
`Nat` values. -/
structure CommandOutput where
  stdout : List Nat
deriving DecidableEq, Repr

/-- Behaviour of one run of the external process, observed within the
deadline: the successive nonempty chunk reads of each stream and the
exit status (`some code` when the child exited, `none` when killed by a
signal; success is `some 0`). -/
structure ProcBehavior where
  stdout_chunks : List (List Nat)
  stderr_chunks : List (List Nat)
  exit_code : Option Int
deriving DecidableEq, Repr

/-- Embedding of `MAX_TRANSLATION_STDOUT_BYTES` (`external_command.rs`). -/
def MAX_TRANSLATION_STDOUT_BYTES : Nat := 4 * 1024 * 1024

/-- Embedding of `MAX_TRANSLATION_STDERR_BYTES` (`external_command.rs`). -/
def MAX_TRANSLATION_STDERR_BYTES : Nat := 1024 * 1024

/-- Loop of `read_to_end_limited` (`external_command.rs`): each chunk is
one successful `read`; a zero-length read ends the stream; before the
buffer is extended, `buf.len() + n > limit_bytes` fails with
`OutputTooLarge`. -/
def readToEndGo (stream : String) (limit_bytes : Nat) :
    List (List Nat) → List Nat → Except TranslationError (List Nat)
  | [], buf => .ok buf
  | chunk :: rest, buf =>
    if chunk.length = 0 then .ok buf
    else if limit_bytes < buf.length + chunk.length then
      .error (.outputTooLarge stream limit_bytes)
    else readToEndGo stream limit_bytes rest (buf ++ chunk)

/-- Embedding of `read_to_end_limited` (`external_command.rs`). -/
def read_to_end_limited (chunks : List (List Nat)) (stream : String)
    (limit_bytes : Nat) : Except TranslationError (List Nat) :=
  readToEndGo stream limit_bytes chunks []

/-- Embedding of the in-deadline path of `run_translation_command`
(`external_command.rs`): spawn succeeds, both stdin writes and the exit
wait complete before the deadline (the claims under verification all
hypothesise this), so what remains is the bounded drain of both streams
— stdout joined first — and the exit-status check. `decode` stands for
`String::from_utf8_lossy` in the previews. -/
def run_translation_command (decode : List Nat → String)
    (command : List String) (proc : ProcBehavior) :
    Except TranslationError CommandOutput :=
  match command with
  | [] => .error .emptyCommand
  | _ :: _ =>
    match read_to_end_limited proc.stdout_chunks "stdout" MAX_TRANSLATION_STDOUT_BYTES with
    | .error e => .error e
    | .ok stdoutBytes =>
      match read_to_end_limited proc.stderr_chunks "stderr" MAX_TRANSLATION_STDERR_BYTES with
      | .error e => .error e
      | .ok stderrBytes =>
        if proc.exit_code ≠ some 0 then
          .error (.nonZeroExit proc.exit_code
            (preview_bytes decode stderrBytes)
            (preview_bytes decode stdoutBytes))
        else .ok ⟨stdoutBytes⟩

/-- Request construction step of `translate_text` (`translation/mod.rs`). -/
def buildTranslationRequest (kind : TranslationKind) (text : String) : TranslationRequest :=
  { schema_version := TRANSLATION_SCHEMA_VERSION
    kind := kind.as_wire_value
    format := kind.format
    source_language := "en"
    target_language := "zh-CN"
    text := text }

/-- Embedding of `translate_text` (`translation/mod.rs`).
`parseResponse` stands for `serde_json::from_slice::<TranslationResponse>`
(`none` on malformed JSON), `decode` for `String::from_utf8_lossy`, and
`proc` for the external process's in-deadline behaviour. -/
def translate_text (decode : List Nat → String)
    (parseResponse : List Nat → Option TranslationResponse)
    (config : AgentReasoningTranslationConfig) (kind : TranslationKind)
    (text : String) (proc : ProcBehavior) : Except TranslationError String :=
  if config.command.isEmpty then .error .emptyCommand
  else
    let _request := buildTranslationRequest kind text
    match run_translation_command decode config.command proc with
    | .error e => .error e
    | .ok output =>
      match parseResponse output.stdout with
      | none => .error (.invalidJson (preview_bytes decode output.stdout))
      | some response =>
        if response.schema_version ≠ TRANSLATION_SCHEMA_VERSION then
          .error (.schemaVersionMismatch TRANSLATION_SCHEMA_VERSION response.schema_version)
        else
          let translated := strTrim response.text
          if translated = "" then .error .emptyTranslation
          else .ok translated

/-- Name of the environment override read by the orchestrator
(`AGENT_REASONING_TRANSLATION_MAX_WAIT_ENV`). -/
def AGENT_REASONING_TRANSLATION_MAX_WAIT_ENV : String :=
  "CODEX_TUI_AGENT_REASONING_TRANSLATION_MAX_WAIT_MS"

/-- Embedding of `AgentReasoningBodyTranslationBarrier`
(`agent_reasoning_translation.rs`); thread ids are `Nat`, durations are
milliseconds, the deadline is an absolute `Nat` instant. -/
structure Barrier where
  request_id : Nat
  thread_id : Nat
  title : Option String
  max_wait : Nat
  deadline : Nat
deriving DecidableEq, Repr

/-- Embedding of `AgentReasoningBodyTranslationResult`
(`agent_reasoning_translation.rs`): the completion message posted by a
background translation task. -/
structure AgentReasoningBodyTranslationResult where
  request_id : Nat
  thread_id : Nat
  title : Option String
  translated : Option String
  error : Option String
deriving DecidableEq, Repr

/-- History cells as far as the orchestrator can observe them: a
reasoning-summary cell (with the result of
`full_markdown_for_translation`), the two translation output cells it
constructs itself, and an opaque cell for everything else. -/
inductive Cell where
  | reasoning (fullMarkdown : Option String)
  | translationBlock (header : Option String) (body : String)
  | translationErrorBlock (header : Option String) (message : String)
  | plain (tag : Nat)
deriving DecidableEq, Repr

/-- Model of `cell.as_any().downcast_ref::<ReasoningSummaryCell>()
.and_then(full_markdown_for_translation)`. -/
def reasoningFullMarkdown : Cell → Option String
  | .reasoning m => m
  | _ => none

/-- Observable side effects of the orchestrator: a history-cell
insertion sent to the app-event channel, a spawned background
translation task, and frame-scheduling requests. -/
inductive Event where
  | insert (cell : Cell)
  | spawnTranslation (request_id : Nat) (thread_id : Nat)
      (title : Option String) (full_reasoning : String)
  | scheduleFrameIn (max_wait : Nat)
deriving DecidableEq, Repr

/-- Cells inserted into history by a list of events, in order. -/
def insertedCells (evs : List Event) : List Cell :=
  evs.filterMap fun
    | .insert c => some c
    | _ => none

/-- Embedding of the state of `AgentReasoningTranslationOrchestrator`
(`agent_reasoning_translation.rs`). The title cache (`HashMap`) is an
association list; the deferred queue (`VecDeque`) a list with push at
the back and pop at the front; the completion channel lives outside the
state (messages are delivered as explicit arguments). -/
structure OState where
  enabled : Bool
  title_translation_cache : List (String × String)
  current_reasoning_title_raw : Option String
  body_translation_barrier : Option Barrier
  deferred_history_cells : List Cell
  body_translation_seq : Nat
deriving DecidableEq, Repr

/-- Model of `HashMap::insert` on the association-list cache. -/
def cacheInsert (cache : List (String × String)) (k v : String) :
    List (String × String) :=
  (k, v) :: cache.filter fun p => p.1 ≠ k

/-- Model of `HashMap::get` on the association-list cache. -/
def cacheGet (cache : List (String × String)) (k : String) : Option String :=
  (cache.find? fun p => p.1 = k).map Prod.snd

/-- Embedding of `AgentReasoningTranslationOrchestrator::new`. -/
def OState.new (enabled : Bool) : OState :=
  { enabled := enabled
    title_translation_cache := []
    current_reasoning_title_raw := none
    body_translation_barrier := none
    deferred_history_cells := []
    body_translation_seq := 0 }

/-- Embedding of `OnBodyTranslatedResult`. -/
structure OnBodyTranslatedResult where
  status_header_update : Option String
  needs_redraw : Bool
deriving DecidableEq, Repr

/-- Embedding of `max_wait_with_env_override`: an absent variable or an
unparsable value falls back to the configured wait. `env` is the value
of `CODEX_TUI_AGENT_REASONING_TRANSLATION_MAX_WAIT_MS` at call time. -/
def max_wait_with_env_override (env : Option String) (config_max_wait : Nat) : Nat :=
  match env with
  | some raw =>
    match parseU64 (strTrim raw) with
    | some ms => ms
    | none => config_max_wait
  | none => config_max_wait

/-- Embedding of `begin_body_translation_barrier`: a no-op returning
`none` while a barrier is open; otherwise allocates the next sequence
number (saturating `u64` increment), computes the deadline from `now`
and the override-resolved wait, installs the barrier and schedules a
frame. -/
def begin_body_translation_barrier (s : OState) (env : Option String)
    (now : Nat) (config_max_wait : Nat) (thread_id : Nat)
    (title : Option String) : Option Nat × OState × List Event :=
  match s.body_translation_barrier with
  | some _ => (none, s, [])
  | none =>
    let request_id := s.body_translation_seq
    let seqNext := satAdd1 s.body_translation_seq
    let max_wait := max_wait_with_env_override env config_max_wait
    let deadline := now + max_wait
    (some request_id,
     { s with
        body_translation_barrier :=
          some ⟨request_id, thread_id, title, max_wait, deadline⟩
        body_translation_seq := seqNext },
     [Event.scheduleFrameIn max_wait])

/-- Embedding of `maybe_translate_reasoning_body`: guarded dispatch of a
body translation. On success the spawned task is recorded as a
`spawnTranslation` event. -/
def maybe_translate_reasoning_body (s : OState) (env : Option String)
    (now : Nat) (config : Option AgentReasoningTranslationConfig)
    (thread_id : Option Nat) (full_reasoning : String) :
    OState × List Event :=
  if s.enabled = false then (s, [])
  else
    match config with
    | none => (s, [])
    | some config =>
      match thread_id with
      | none => (s, [])
      | some thread_id =>
        let title := extract_first_bold full_reasoning
        match extract_reasoning_body_for_translation full_reasoning with
        | none => (s, [])
        | some body =>
          if strTrim body = "" then (s, [])
          else
            match begin_body_translation_barrier s env now
                config.ui_max_wait_ms thread_id title with
            | (none, s1, evs) => (s1, evs)
            | (some request_id, s1, evs) =>
              (s1, evs ++ [Event.spawnTranslation request_id thread_id title full_reasoning])

/-- Embedding of `emit_history_cell`: defer while a barrier is open,
send directly otherwise. -/
def emit_history_cell (s : OState) (cell : Cell) : OState × List Event :=
  match s.body_translation_barrier with
  | some _ =>
    ({ s with deferred_history_cells := s.deferred_history_cells ++ [cell] }, [])
  | none => (s, [Event.insert cell])

/-- Loop of `flush_deferred_history_cells`, recursing on the queue
contents; the state argument carries an already emptied queue, and a
chained dispatch that opens a new barrier puts the unprocessed suffix
back and stops. -/
def flushGo (env : Option String) (now : Nat)
    (config : Option AgentReasoningTranslationConfig)
    (active_thread_id : Option Nat) : OState → List Cell → OState × List Event
  | s, [] => (s, [])
  | s, cell :: rest =>
    match reasoningFullMarkdown cell with
    | some full =>
      if s.body_translation_barrier = none then
        let p := maybe_translate_reasoning_body s env now config active_thread_id full
        if p.1.body_translation_barrier ≠ none then
          ({ p.1 with deferred_history_cells := rest }, Event.insert cell :: p.2)
        else
          let q := flushGo env now config active_thread_id p.1 rest
          (q.1, Event.insert cell :: (p.2 ++ q.2))
      else
        let q := flushGo env now config active_thread_id s rest
        (q.1, Event.insert cell :: q.2)
    | none =>
      let q := flushGo env now config active_thread_id s rest
      (q.1, Event.insert cell :: q.2)

/-- Embedding of `flush_deferred_history_cells`. -/
def flush_deferred_history_cells (s : OState) (env : Option String)
    (now : Nat) (config : Option AgentReasoningTranslationConfig)
    (active_thread_id : Option Nat) : OState × List Event :=
  flushGo env now config active_thread_id
    { s with deferred_history_cells := [] } s.deferred_history_cells

/-- Embedding of `emit_history_cell_with_translation_hook`. -/
def emit_history_cell_with_translation_hook (s : OState)
    (env : Option String) (now : Nat)
    (config : Option AgentReasoningTranslationConfig)
    (active_thread_id : Option Nat) (cell : Cell) : OState × List Event :=
  match s.body_translation_barrier with
  | some _ =>
    ({ s with deferred_history_cells := s.deferred_history_cells ++ [cell] }, [])
  | none =>
    match reasoningFullMarkdown cell with
    | some full =>
      let p := maybe_translate_reasoning_body s env now config active_thread_id full
      (p.1, Event.insert cell :: p.2)
    | none => (s, [Event.insert cell])

/-- Embedding of `maybe_status_header_from_reasoning_buffer`. -/
def maybe_status_header_from_reasoning_buffer (s : OState)
    (reasoning_buffer : String) : OState × Option String :=
  match extract_first_bold reasoning_buffer with
  | none => (s, none)
  | some header =>
    let s1 := { s with current_reasoning_title_raw := some header }
    match cacheGet s1.title_translation_cache header with
    | some translated => (s1, some (format_bilingual_title header translated))
    | none => (s1, some header)

/-- Embedding of `on_body_translated`: match the completion message
against the open barrier and the active thread; on a match, clear the
barrier, apply the result (title cache, header update, one output
cell), and flush the deferred queue. -/
def on_body_translated (s : OState) (env : Option String) (now : Nat)
    (msg : AgentReasoningBodyTranslationResult)
    (active_thread_id : Option Nat)
    (config : Option AgentReasoningTranslationConfig) :
    OState × List Event × OnBodyTranslatedResult :=
  match s.body_translation_barrier with
  | none => (s, [], ⟨none, false⟩)
  | some barrier =>
    if barrier.request_id ≠ msg.request_id then (s, [], ⟨none, false⟩)
    else if barrier.thread_id ≠ msg.thread_id then (s, [], ⟨none, false⟩)
    else if active_thread_id ≠ some msg.thread_id then (s, [], ⟨none, false⟩)
    else
      let s1 : OState := { s with body_translation_barrier := none }
      match msg.translated with
      | some translated =>
        let translated_title := extract_first_bold translated
        let translated_body :=
          strTrim ((extract_reasoning_body_for_translation translated).getD translated)
        let cacheStep : OState × Option String :=
          match msg.title, translated_title with
          | some original, some ttitle =>
            let s2 := { s1 with
              title_translation_cache :=
                cacheInsert s1.title_translation_cache original ttitle }
            if s2.current_reasoning_title_raw = some original then
              (s2, some (format_bilingual_title original ttitle))
            else (s2, none)
          | _, _ => (s1, none)
        let s2 := cacheStep.1
        let status_header_update := cacheStep.2
        let outCell := Cell.translationBlock none
          (if translated_body = "" then translated else translated_body)
        let p := emit_history_cell s2 outCell
        let q := flush_deferred_history_cells p.1 env now config active_thread_id
        (q.1, p.2 ++ q.2, ⟨status_header_update, true⟩)
      | none =>
        let reason := msg.error.getD "unknown error"
        let p := emit_history_cell s1 (Cell.translationErrorBlock msg.title reason)
        let q := flush_deferred_history_cells p.1 env now config active_thread_id
        (q.1, p.2 ++ q.2, ⟨none, true⟩)

/-- Failure message emitted by the timeout transition. -/
def timeoutMessage (max_wait_ms : Nat) : String :=
  "waiting timed out (" ++ toString max_wait_ms ++ "ms); skipped translation output"

/-- Embedding of `maybe_flush_timeout`: on a tick at `now`, while
enabled and Pending with `deadline ≤ now`, clear the barrier, emit the
timeout failure cell with the barrier's captured title, flush the
deferred queue, and report `true`. -/
def maybe_flush_timeout (s : OState) (env : Option String) (now : Nat)
    (config : Option AgentReasoningTranslationConfig)
    (active_thread_id : Option Nat) : Bool × OState × List Event :=
  if s.enabled = false then (false, s, [])
  else
    match s.body_translation_barrier with
    | none => (false, s, [])
    | some barrier =>
      if now < barrier.deadline then (false, s, [])
      else
        let title := barrier.title
        let max_wait_ms := barrier.max_wait
        let s1 : OState := { s with body_translation_barrier := none }
        let p := emit_history_cell s1
          (Cell.translationErrorBlock title (timeoutMessage max_wait_ms))
        let q := flush_deferred_history_cells p.1 env now config active_thread_id
        (true, q.1, p.2 ++ q.2)

/-- Total number of bytes a stream delivers across all its chunks. -/
def totalBytes (chunks : List (List Nat)) : Nat :=
  (chunks.map List.length).sum

/-- Concrete orchestrator state with an open (Pending) barrier, used to
instantiate hypothesis-bearing theorems. -/
def samplePendingState : OState :=
  { enabled := true
    title_translation_cache := []
    current_reasoning_title_raw := none
    body_translation_barrier := some ⟨0, 1, some "T", 5, 5⟩
    deferred_history_cells := [Cell.plain 0, Cell.plain 1]
    body_translation_seq := 1 }

/-- Concrete idle orchestrator state. -/
def sampleIdleState : OState := OState.new true

/-- Concrete configuration used to instantiate hypothesis-bearing
theorems. -/
def sampleConfig : AgentReasoningTranslationConfig :=
  { command := ["translator"], timeout_ms := 2000, ui_max_wait_ms := 100 }

/-- Concrete idle orchestrator state whose deferred queue starts with a
completed reasoning block (eligible for chained dispatch) followed by a
plain unit. -/
def sampleChainState : OState :=
  { enabled := true
    title_translation_cache := []
    current_reasoning_title_raw := none
    body_translation_barrier := none
    deferred_history_cells := [Cell.reasoning (some "**T** body"), Cell.plain 7]
    body_translation_seq := 3 }

@[simp]
theorem insertedCells_nil : insertedCells [] = [] := rfl

@[simp]
theorem insertedCells_insert_cons (c : Cell) (evs : List Event) :
    insertedCells (Event.insert c :: evs) = c :: insertedCells evs := rfl

@[simp]
theorem insertedCells_frame_cons (d : Nat) (evs : List Event) :
    insertedCells (Event.scheduleFrameIn d :: evs) = insertedCells evs := rfl

@[simp]
theorem insertedCells_spawn_cons (rid tid : Nat) (title : Option String)
    (full : String) (evs : List Event) :
    insertedCells (Event.spawnTranslation rid tid title full :: evs) =
      insertedCells evs := rfl

@[simp]
theorem insertedCells_append (l1 l2 : List Event) :
    insertedCells (l1 ++ l2) = insertedCells l1 ++ insertedCells l2 :=
  List.filterMap_append _ _ _

/-- Characterisation of `begin_body_translation_barrier` when a barrier
is already open: complete no-op. -/
theorem begin_of_pending (s : OState) (env : Option String)
    (now cmw tid : Nat) (title : Option String) (b : Barrier)
    (hb : s.body_translation_barrier = some b) :
    begin_body_translation_barrier s env now cmw tid title = (none, s, []) := by
  unfold begin_body_translation_barrier
  rw [hb]

/-- Characterisation of `begin_body_translation_barrier` from the Idle
state. -/
theorem begin_of_idle (s : OState) (env : Option String)
    (now cmw tid : Nat) (title : Option String)
    (hb : s.body_translation_barrier = none) :
    begin_body_translation_barrier s env now cmw tid title =
      (some s.body_translation_seq,
       { s with
          body_translation_barrier :=
            some ⟨s.body_translation_seq, tid, title,
                  max_wait_with_env_override env cmw,
                  now + max_wait_with_env_override env cmw⟩
          body_translation_seq := satAdd1 s.body_translation_seq },
       [Event.scheduleFrameIn (max_wait_with_env_override env cmw)]) := by
  unfold begin_body_translation_barrier
  rw [hb]

/-- A dispatch attempt neither touches the deferred queue nor inserts
any history cell. -/
theorem mtrb_deferred_and_inserts (s : OState) (env : Option String)
    (now : Nat) (config : Option AgentReasoningTranslationConfig)
    (tid : Option Nat) (full : String) :
    (maybe_translate_reasoning_body s env now config tid full).1.deferred_history_cells =
        s.deferred_history_cells ∧
    insertedCells (maybe_translate_reasoning_body s env now config tid full).2 = [] := by
  unfold maybe_translate_reasoning_body
  by_cases hE : s.enabled = false
  · simp [hE]
  cases config with
  | none => simp [hE]
  | some c =>
    cases tid with
    | none => simp [hE]
    | some t =>
      cases hx : extract_reasoning_body_for_translation full with
      | none => simp [hE, hx]
      | some body =>
        by_cases hbe : strTrim body = ""
        · simp [hE, hx, hbe]
        · cases hb : s.body_translation_barrier with
          | some b =>
            simp [hE, hx, hbe,
              begin_of_pending s env now c.ui_max_wait_ms t
                (extract_first_bold full) b hb]
          | none =>
            simp [hE, hx, hbe,
              begin_of_idle s env now c.ui_max_wait_ms t
                (extract_first_bold full) hb]

/-- C1: Barrier mutual exclusion. While a barrier is open (Pending),
`begin_body_translation_barrier` returns no new request id and leaves
the orchestrator state unchanged (so, the barrier slot being a single
`Option`, at most one barrier is open at any instant); a successful
begin happens only from the Idle state, allocates the current sequence
number and advances the sequence by a saturating increment, so the new
request id is strictly greater than every previously allocated id
(ids previously allocated all lie below the sequence counter). -/
theorem barrier_mutual_exclusion_and_monotone_ids :
    (∀ (s : OState) (env : Option String) (now cmw tid : Nat)
        (title : Option String) (b : Barrier),
        s.body_translation_barrier = some b →
        begin_body_translation_barrier s env now cmw tid title = (none, s, [])) ∧
    (∀ (s : OState) (env : Option String) (now cmw tid : Nat)
        (title : Option String) (rid : Nat),
        (begin_body_translation_barrier s env now cmw tid title).1 = some rid →
        s.body_translation_barrier = none ∧
        rid = s.body_translation_seq ∧
        (begin_body_translation_barrier s env now cmw tid title).2.1.body_translation_seq =
          satAdd1 s.body_translation_seq) ∧
    (∀ (s : OState) (env : Option String) (now cmw tid : Nat)
        (title : Option String) (rid : Nat) (allocated : List Nat),
        (begin_body_translation_barrier s env now cmw tid title).1 = some rid →
        (∀ i ∈ allocated, i < s.body_translation_seq) →
        (∀ i ∈ allocated, i < rid) ∧
        (s.body_translation_seq < U64_MAX →
          ∀ i ∈ rid :: allocated,
            i < (begin_body_translation_barrier s env now cmw tid title).2.1.body_translation_seq)) := by
  have hsome : ∀ (s : OState) (env : Option String) (now cmw tid : Nat)
      (title : Option String) (rid : Nat),
      (begin_body_translation_barrier s env now cmw tid title).1 = some rid →
      s.body_translation_barrier = none ∧
      rid = s.body_translation_seq ∧
      (begin_body_translation_barrier s env now cmw tid title).2.1.body_translation_seq =
        satAdd1 s.body_translation_seq := by
    intro s env now cmw tid title rid h
    cases hb : s.body_translation_barrier with
    | some b =>
      rw [begin_of_pending s env now cmw tid title b hb] at h
      exact absurd h (by simp)
    | none =>
      rw [begin_of_idle s env now cmw tid title hb] at h ⊢
      refine ⟨rfl, ?_, rfl⟩
      exact (Option.some_inj.mp h).symm
  refine ⟨fun s env now cmw tid title b hb => begin_of_pending s env now cmw tid title b hb,
    hsome, ?_⟩
  intro s env now cmw tid title rid allocated h halloc
  obtain ⟨hb, hrid, hseq⟩ := hsome s env now cmw tid title rid h
  subst hrid
  refine ⟨halloc, ?_⟩
  intro hlt i hi
  rw [hseq]
  have hstep : s.body_translation_seq < satAdd1 s.body_translation_seq := by
    unfold satAdd1 U64_MAX at *
    omega
  rcases List.mem_cons.mp hi with hi | hi
  · exact hi ▸ hstep
  · exact lt_trans (halloc i hi) hstep

/-- Witness for C1 at concrete states: a second begin against a Pending
state is a no-op, and a successful begin from the idle state allocates
an id dominating every previously allocated id. -/
theorem barrier_mutual_exclusion_and_monotone_ids_witness :
    begin_body_translation_barrier samplePendingState none 0 100 1 none =
      (none, samplePendingState, []) ∧
    ((∀ i ∈ ([] : List Nat), i < 0) ∧
      (sampleIdleState.body_translation_seq < U64_MAX →
        ∀ i ∈ (0 : Nat) :: ([] : List Nat),
          i < (begin_body_translation_barrier sampleIdleState none 0 100 1 none).2.1.body_translation_seq)) := by
  constructor
  · exact barrier_mutual_exclusion_and_monotone_ids.1 samplePendingState none 0 100 1 none
      ⟨0, 1, some "T", 5, 5⟩ rfl
  · have h := barrier_mutual_exclusion_and_monotone_ids.2.2 sampleIdleState none 0 100 1 none
      0 [] rfl (by simp)
    exact ⟨by simp, h.2⟩

/-- C3: Stale discard. A completion message delivered while no barrier
is open, or whose request id differs from the open barrier's, or whose
thread id differs from the barrier's, or whose thread is not the active
thread, causes no cache update, no UI emission, no status-header update
and leaves the whole orchestrator state (barrier, cache, deferred
queue) unchanged. -/
theorem on_body_translated_stale_discard (s : OState) (env : Option String)
    (now : Nat) (msg : AgentReasoningBodyTranslationResult)
    (active_thread_id : Option Nat)
    (config : Option AgentReasoningTranslationConfig)
    (h : s.body_translation_barrier = none ∨
      ∃ b, s.body_translation_barrier = some b ∧
        (b.request_id ≠ msg.request_id ∨ b.thread_id ≠ msg.thread_id ∨
         active_thread_id ≠ some msg.thread_id)) :
    on_body_translated s env now msg active_thread_id config =
      (s, [], ⟨none, false⟩) := by
  unfold on_body_translated
  rcases h with hb | ⟨b, hb, hmis⟩
  · rw [hb]
  · rw [hb]
    by_cases h1 : b.request_id ≠ msg.request_id
    · simp [h1]
    by_cases h2 : b.thread_id ≠ msg.thread_id
    · simp [h1, h2]
    by_cases h3 : active_thread_id ≠ some msg.thread_id
    · simp [h1, h2, h3]
    · exact absurd hmis (by tauto)

/-- Witness for C3: a message whose request id mismatches the open
barrier is discarded without any state change. -/
theorem on_body_translated_stale_discard_witness :
    on_body_translated samplePendingState none 0
        ⟨99, 1, none, some "译文", none⟩ (some 1) none =
      (samplePendingState, [], ⟨none, false⟩) :=
  on_body_translated_stale_discard samplePendingState none 0
    ⟨99, 1, none, some "译文", none⟩ (some 1) none
    (Or.inr ⟨⟨0, 1, some "T", 5, 5⟩, rfl, Or.inl (by decide)⟩)

/-- C10: Dispatch precondition. `maybe_translate_reasoning_body` is a
complete no-op (state unchanged, no task spawned, no cell emitted, no
frame scheduled) whenever translation is disabled, or no config or no
thread id is present, or the reasoning text has no first bold-marker
pair with nonempty (after trimming) text after it. -/
theorem maybe_translate_reasoning_body_noop (s : OState) (env : Option String)
    (now : Nat) (config : Option AgentReasoningTranslationConfig)
    (tid : Option Nat) (full : String)
    (h : s.enabled = false ∨ config = none ∨ tid = none ∨
      extract_reasoning_body_for_translation full = none ∨
      ∃ body, extract_reasoning_body_for_translation full = some body ∧
        strTrim body = "") :
    maybe_translate_reasoning_body s env now config tid full = (s, []) := by
  unfold maybe_translate_reasoning_body
  by_cases hE : s.enabled = false
  · simp [hE]
  cases config with
  | none => simp [hE]
  | some c =>
    cases tid with
    | none => simp [hE]
    | some t =>
      cases hx : extract_reasoning_body_for_translation full with
      | none => simp [hE, hx]
      | some body =>
        have hbe : strTrim body = "" := by
          rcases h with h | h | h | h | ⟨body2, hb2, he2⟩
          · exact absurd h hE
          · exact absurd h (by simp)
          · exact absurd h (by simp)
          · exact absurd (hx.symm.trans h) (by simp)
          · rw [hx] at hb2
            exact (Option.some_inj.mp hb2) ▸ he2
        simp [hE, hx, hbe]

/-- Witness for C10: reasoning text without any bold-marker pair is
never dispatched. -/
theorem maybe_translate_reasoning_body_noop_witness :
    maybe_translate_reasoning_body sampleIdleState none 0 (some sampleConfig)
      (some 1) "no bold here" = (sampleIdleState, []) :=
  maybe_translate_reasoning_body_noop sampleIdleState none 0 (some sampleConfig)
    (some 1) "no bold here"
    (Or.inr (Or.inr (Or.inr (Or.inl (by decide)))))

/-- C9: Every request built by `translate_text` carries the fixed
language pair `en → zh-CN`, schema version 1, the wire kind, the
kind-derived format (title ⇒ plain, body ⇒ markdown), and the input
text unchanged; the request depends on nothing but the kind and the
text (the builder takes no other argument). -/
theorem translation_request_fixed_fields (kind : TranslationKind) (text : String) :
    (buildTranslationRequest kind text).schema_version = TRANSLATION_SCHEMA_VERSION ∧
    (buildTranslationRequest kind text).source_language = "en" ∧
    (buildTranslationRequest kind text).target_language = "zh-CN" ∧
    (buildTranslationRequest kind text).text = text ∧
    (buildTranslationRequest kind text).kind = kind.as_wire_value ∧
    ((buildTranslationRequest kind text).format = TranslationFormat.plain ↔
      kind = TranslationKind.agentReasoningTitle) ∧
    ((buildTranslationRequest kind text).format = TranslationFormat.markdown ↔
      kind = TranslationKind.agentReasoningBody) := by
  cases kind <;> simp [buildTranslationRequest, TranslationKind.format]

/-- Characterisation of the deferred-flush loop: started on an emptied
queue holder, it emits some prefix of the queue in FIFO order, leaves
exactly the matching suffix queued, and stops early only with a (newly
chained) barrier open. -/
theorem flushGo_spec (env : Option String) (now : Nat)
    (config : Option AgentReasoningTranslationConfig) (active : Option Nat) :
    ∀ (q : List Cell) (s : OState), s.deferred_history_cells = [] →
      ∃ k, k ≤ q.length ∧
        insertedCells (flushGo env now config active s q).2 = q.take k ∧
        (flushGo env now config active s q).1.deferred_history_cells = q.drop k ∧
        (k < q.length → (flushGo env now config active s q).1.body_translation_barrier ≠ none) := by
  intro q
  induction q with
  | nil =>
    intro s hs
    refine ⟨0, Nat.le_refl 0, ?_, ?_, ?_⟩
    · simp [flushGo]
    · simpa [flushGo] using hs
    · intro h; exact absurd h (by simp)
  | cons cell rest ih =>
    intro s hs
    cases hm : reasoningFullMarkdown cell with
    | none =>
      obtain ⟨k, hk, hins, hdef, hbar⟩ := ih s hs
      refine ⟨k + 1, Nat.succ_le_succ hk, ?_, ?_, ?_⟩
      · simp [flushGo, hm, hins]
      · simp [flushGo, hm, hdef]
      · intro hlt
        simp only [flushGo, hm]
        exact hbar (Nat.lt_of_succ_lt_succ hlt)
    | some full =>
      by_cases hb : s.body_translation_barrier = none
      · have hpd := (mtrb_deferred_and_inserts s env now config active full).1
        have hpi := (mtrb_deferred_and_inserts s env now config active full).2
        by_cases hp : (maybe_translate_reasoning_body s env now config active full).1.body_translation_barrier = none
        · obtain ⟨k, hk, hins, hdef, hbar⟩ :=
            ih (maybe_translate_reasoning_body s env now config active full).1
              (hpd.trans hs)
          refine ⟨k + 1, Nat.succ_le_succ hk, ?_, ?_, ?_⟩
          · simp [flushGo, hm, hb, hp, hpi, hins]
          · simp [flushGo, hm, hb, hp, hdef]
          · intro hlt
            simp only [flushGo, hm]
            simp only [hb, if_true, hp]
            simp only [ne_eq, not_true_eq_false, if_false]
            exact hbar (Nat.lt_of_succ_lt_succ hlt)
        · refine ⟨1, Nat.succ_le_succ (Nat.zero_le _), ?_, ?_, ?_⟩
          · simp [flushGo, hm, hb, hp, hpi]
          · simp [flushGo, hm, hb, hp]
          · intro _
            simp [flushGo, hm, hb, hp]
      · obtain ⟨k, hk, hins, hdef, hbar⟩ := ih s hs
        refine ⟨k + 1, Nat.succ_le_succ hk, ?_, ?_, ?_⟩
        · simp [flushGo, hm, hb, hins]
        · simp [flushGo, hm, hb, hdef]
        · intro hlt
          simp only [flushGo, hm]
          simp only [hb, if_false]
          exact hbar (Nat.lt_of_succ_lt_succ hlt)

/-- Composition of the flush loop: when flushing a prefix ends with no
barrier open (so the loop never broke), flushing the whole queue first
runs the prefix, then continues on the suffix from the reached state,
with the events concatenated. -/
theorem flushGo_append (env : Option String) (now : Nat)
    (config : Option AgentReasoningTranslationConfig) (active : Option Nat) :
    ∀ (pre post : List Cell) (s : OState),
      (flushGo env now config active s pre).1.body_translation_barrier = none →
      flushGo env now config active s (pre ++ post) =
        ((flushGo env now config active
            (flushGo env now config active s pre).1 post).1,
         (flushGo env now config active s pre).2 ++
           (flushGo env now config active
             (flushGo env now config active s pre).1 post).2) := by
  intro pre
  induction pre with
  | nil =>
    intro post s h
    simp [flushGo]
  | cons c pre' ih =>
    intro post s h
    cases hm : reasoningFullMarkdown c with
    | none =>
      have hstate : (flushGo env now config active s (c :: pre')).1 =
          (flushGo env now config active s pre').1 := by
        simp [flushGo, hm]
      rw [hstate] at h
      have hcomp := ih post s h
      simp [flushGo, hm, hcomp, hstate]
    | some full =>
      by_cases hb : s.body_translation_barrier = none
      · by_cases hp : (maybe_translate_reasoning_body s env now config
            active full).1.body_translation_barrier = none
        · have hstate : (flushGo env now config active s (c :: pre')).1 =
              (flushGo env now config active
                (maybe_translate_reasoning_body s env now config active full).1
                pre').1 := by
            simp [flushGo, hm, hb, hp]
          rw [hstate] at h
          have hcomp := ih post _ h
          simp [flushGo, hm, hb, hp, hcomp, hstate]
        · exfalso
          have hstate : (flushGo env now config active s (c :: pre')).1.body_translation_barrier =
              (maybe_translate_reasoning_body s env now config
                active full).1.body_translation_barrier := by
            simp [flushGo, hm, hb, hp]
          rw [hstate] at h
          exact hp h
      · have hstate : (flushGo env now config active s (c :: pre')).1 =
            (flushGo env now config active s pre').1 := by
          simp [flushGo, hm, hb]
        rw [hstate] at h
        have hcomp := ih post s h
        simp [flushGo, hm, hb, hcomp, hstate]

/-- C4: Deferred-queue ordering. A unit submitted through
`emit_history_cell` while a barrier is open is appended at the back of
the deferred queue, never dropped and never emitted early; flushing
emits a prefix of the queue in FIFO (submission) order, leaves exactly
the remaining suffix queued in order, and stops before the end only
when a chained dispatch has opened a new barrier; moreover, when the
first cell whose chained dispatch opens a new barrier sits after the
chain-free prefix `pre`, draining stops exactly there: the flush emits
`pre` and that cell and nothing more, the suffix after it stays queued
in order, and the new barrier is open. -/
theorem deferred_queue_fifo :
    (∀ (s : OState) (cell : Cell) (b : Barrier),
        s.body_translation_barrier = some b →
        emit_history_cell s cell =
          ({ s with deferred_history_cells := s.deferred_history_cells ++ [cell] }, [])) ∧
    (∀ (s : OState) (env : Option String) (now : Nat)
        (config : Option AgentReasoningTranslationConfig) (active : Option Nat),
        ∃ k, k ≤ s.deferred_history_cells.length ∧
          insertedCells (flush_deferred_history_cells s env now config active).2 =
            s.deferred_history_cells.take k ∧
          (flush_deferred_history_cells s env now config active).1.deferred_history_cells =
            s.deferred_history_cells.drop k ∧
          (k < s.deferred_history_cells.length →
            (flush_deferred_history_cells s env now config active).1.body_translation_barrier ≠ none)) ∧
    (∀ (s : OState) (env : Option String) (now : Nat)
        (config : Option AgentReasoningTranslationConfig) (active : Option Nat)
        (pre post : List Cell) (cell : Cell) (full : String),
        s.deferred_history_cells = pre ++ cell :: post →
        (flushGo env now config active
            { s with deferred_history_cells := [] } pre).1.body_translation_barrier =
          none →
        reasoningFullMarkdown cell = some full →
        (maybe_translate_reasoning_body
            (flushGo env now config active
              { s with deferred_history_cells := [] } pre).1
            env now config active full).1.body_translation_barrier ≠ none →
        insertedCells (flush_deferred_history_cells s env now config active).2 =
            pre ++ [cell] ∧
        (flush_deferred_history_cells s env now config active).1.deferred_history_cells =
            post ∧
        (flush_deferred_history_cells s env now config active).1.body_translation_barrier ≠
          none) := by
  refine ⟨?_, ?_, ?_⟩
  · intro s cell b hb
    unfold emit_history_cell
    rw [hb]
  · intro s env now config active
    exact flushGo_spec env now config active s.deferred_history_cells
      { s with deferred_history_cells := [] } rfl
  · intro s env now config active pre post cell full hq hpre hm hchain
    unfold flush_deferred_history_cells
    rw [hq, flushGo_append env now config active pre (cell :: post) _ hpre]
    have hstep : flushGo env now config active
        (flushGo env now config active
          { s with deferred_history_cells := [] } pre).1 (cell :: post) =
        ({ (maybe_translate_reasoning_body
              (flushGo env now config active
                { s with deferred_history_cells := [] } pre).1
              env now config active full).1 with
            deferred_history_cells := post },
         Event.insert cell ::
           (maybe_translate_reasoning_body
              (flushGo env now config active
                { s with deferred_history_cells := [] } pre).1
              env now config active full).2) := by
      simp [flushGo, hm, hpre, hchain]
    rw [hstep]
    refine ⟨?_, rfl, ?_⟩
    · obtain ⟨k, hk, hins, hdef, hbar⟩ := flushGo_spec env now config active pre
        { s with deferred_history_cells := [] } rfl
      have hkfull : k = pre.length := by
        by_contra hne
        exact (hbar (lt_of_le_of_ne hk hne)) hpre
      rw [insertedCells_append, hins, hkfull, List.take_length,
        insertedCells_insert_cons,
        (mtrb_deferred_and_inserts _ env now config active full).2]
    · simpa using hchain

/-- Witness for C4: emission while Pending at a concrete state, FIFO
flush there, and a concrete chained flush where draining stops at the
reasoning cell with the plain unit after it still queued. -/
theorem deferred_queue_fifo_witness :
    (emit_history_cell samplePendingState (Cell.plain 2) =
      ({ samplePendingState with
          deferred_history_cells :=
            samplePendingState.deferred_history_cells ++ [Cell.plain 2] }, [])) ∧
    (∃ k, k ≤ samplePendingState.deferred_history_cells.length ∧
      insertedCells (flush_deferred_history_cells samplePendingState none 0 none none).2 =
        samplePendingState.deferred_history_cells.take k ∧
      (flush_deferred_history_cells samplePendingState none 0 none none).1.deferred_history_cells =
        samplePendingState.deferred_history_cells.drop k ∧
      (k < samplePendingState.deferred_history_cells.length →
        (flush_deferred_history_cells samplePendingState none 0 none none).1.body_translation_barrier ≠ none)) ∧
    (insertedCells (flush_deferred_history_cells sampleChainState none 0
          (some sampleConfig) (some 1)).2 =
        [] ++ [Cell.reasoning (some "**T** body")] ∧
      (flush_deferred_history_cells sampleChainState none 0
          (some sampleConfig) (some 1)).1.deferred_history_cells = [Cell.plain 7] ∧
      (flush_deferred_history_cells sampleChainState none 0
          (some sampleConfig) (some 1)).1.body_translation_barrier ≠ none) :=
  ⟨deferred_queue_fifo.1 samplePendingState (Cell.plain 2) ⟨0, 1, some "T", 5, 5⟩ rfl,
   deferred_queue_fifo.2.1 samplePendingState none 0 none none,
   deferred_queue_fifo.2.2 sampleChainState none 0 (some sampleConfig) (some 1)
     [] [Cell.plain 7] (Cell.reasoning (some "**T** body")) "**T** body"
     rfl (by decide) rfl (by decide)⟩

/-- C5: Timeout transition. With an (enabled) open barrier, a tick
strictly before the deadline changes nothing and returns `false`; a
tick at or past the deadline clears the barrier, emits first the
failure-styled unit carrying the barrier's captured title and the
"waiting timed out … skipped translation output" message, then flushes
the deferred queue, and returns `true`. -/
theorem timeout_transition :
    (∀ (s : OState) (env : Option String) (now : Nat)
        (config : Option AgentReasoningTranslationConfig)
        (active : Option Nat) (b : Barrier),
        s.enabled = true → s.body_translation_barrier = some b →
        now < b.deadline →
        maybe_flush_timeout s env now config active = (false, s, [])) ∧
    (∀ (s : OState) (env : Option String) (now : Nat)
        (config : Option AgentReasoningTranslationConfig)
        (active : Option Nat) (b : Barrier),
        s.enabled = true → s.body_translation_barrier = some b →
        b.deadline ≤ now →
        maybe_flush_timeout s env now config active =
          (true,
           (flush_deferred_history_cells { s with body_translation_barrier := none }
              env now config active).1,
           Event.insert (Cell.translationErrorBlock b.title (timeoutMessage b.max_wait)) ::
             (flush_deferred_history_cells { s with body_translation_barrier := none }
                env now config active).2)) := by
  constructor
  · intro s env now config active b hE hb hlt
    unfold maybe_flush_timeout
    rw [hb]
    simp [hE, hlt]
  · intro s env now config active b hE hb hle
    unfold maybe_flush_timeout
    rw [hb]
    simp [hE, Nat.not_lt.mpr hle, emit_history_cell]

/-- Witness for C5 at the concrete Pending state (deadline 5): a tick
at 0 is a no-op; a tick at 10 emits the timeout unit and flushes. -/
theorem timeout_transition_witness :
    maybe_flush_timeout samplePendingState none 0 none (some 1) =
      (false, samplePendingState, []) ∧
    maybe_flush_timeout samplePendingState none 10 none (some 1) =
      (true,
       (flush_deferred_history_cells
          { samplePendingState with body_translation_barrier := none }
          none 10 none (some 1)).1,
       Event.insert (Cell.translationErrorBlock (some "T") (timeoutMessage 5)) ::
         (flush_deferred_history_cells
            { samplePendingState with body_translation_barrier := none }
            none 10 none (some 1)).2) :=
  ⟨timeout_transition.1 samplePendingState none 0 none (some 1) ⟨0, 1, some "T", 5, 5⟩
      rfl rfl (by decide),
   timeout_transition.2 samplePendingState none 10 none (some 1) ⟨0, 1, some "T", 5, 5⟩
      rfl rfl (by decide)⟩

/-- Reading stops with `OutputTooLarge` as soon as the collected bytes
would exceed the ceiling. -/
theorem readToEndGo_over (stream : String) (limit : Nat) :
    ∀ (chunks : List (List Nat)) (buf : List Nat),
      (∀ c ∈ chunks, c ≠ []) → buf.length ≤ limit →
      limit < buf.length + totalBytes chunks →
      readToEndGo stream limit chunks buf =
        .error (.outputTooLarge stream limit) := by
  intro chunks
  induction chunks with
  | nil =>
    intro buf _ hble hover
    simp [totalBytes] at hover
    omega
  | cons c rest ih =>
    intro buf hwf hble hover
    have hc : c ≠ [] := hwf c (List.mem_cons_self _ _)
    have hcl : ¬ c.length = 0 := fun h => hc (List.length_eq_zero.mp h)
    have htot : totalBytes (c :: rest) = c.length + totalBytes rest := by
      simp [totalBytes]
    rw [htot] at hover
    by_cases hlt : limit < buf.length + c.length
    · simp [readToEndGo, hcl, hlt]
    · have hble2 : (buf ++ c).length ≤ limit := by
        simp [List.length_append]; omega
      have hover2 : limit < (buf ++ c).length + totalBytes rest := by
        simp [List.length_append]; omega
      simp [readToEndGo, hcl, hlt,
        ih (buf ++ c) (fun d hd => hwf d (List.mem_cons_of_mem _ hd)) hble2 hover2]

/-- Reading a stream whose total stays at or under the ceiling collects
every byte. -/
theorem readToEndGo_ok (stream : String) (limit : Nat) :
    ∀ (chunks : List (List Nat)) (buf : List Nat),
      (∀ c ∈ chunks, c ≠ []) →
      buf.length + totalBytes chunks ≤ limit →
      readToEndGo stream limit chunks buf = .ok (buf ++ chunks.flatten) := by
  intro chunks
  induction chunks with
  | nil =>
    intro buf _ _
    simp [readToEndGo]
  | cons c rest ih =>
    intro buf hwf hle
    have hc : c ≠ [] := hwf c (List.mem_cons_self _ _)
    have hcl : ¬ c.length = 0 := fun h => hc (List.length_eq_zero.mp h)
    have htot : totalBytes (c :: rest) = c.length + totalBytes rest := by
      simp [totalBytes]
    rw [htot] at hle
    have hle2 : (buf ++ c).length + totalBytes rest ≤ limit := by
      simp [List.length_append]; omega
    have hnlt : ¬ limit < buf.length + c.length := by omega
    simp [readToEndGo, hcl, hnlt,
      ih (buf ++ c) (fun d hd => hwf d (List.mem_cons_of_mem _ hd)) hle2,
      List.append_assoc]

/-- `read_to_end_limited` on an in-limit stream returns all its bytes. -/
theorem read_to_end_limited_ok (chunks : List (List Nat)) (stream : String)
    (limit : Nat) (hwf : ∀ c ∈ chunks, c ≠ [])
    (hle : totalBytes chunks ≤ limit) :
    read_to_end_limited chunks stream limit = .ok chunks.flatten := by
  have h := readToEndGo_ok stream limit chunks [] hwf (by simpa using hle)
  simpa [read_to_end_limited] using h

/-- `read_to_end_limited` on an over-limit stream fails. -/
theorem read_to_end_limited_over (chunks : List (List Nat)) (stream : String)
    (limit : Nat) (hwf : ∀ c ∈ chunks, c ≠ [])
    (hover : limit < totalBytes chunks) :
    read_to_end_limited chunks stream limit =
      .error (.outputTooLarge stream limit) := by
  have h := readToEndGo_over stream limit chunks [] hwf (Nat.zero_le _)
    (by simpa using hover)
  simpa [read_to_end_limited] using h

/-- On an in-deadline, in-limit run, the runner's outcome is decided by
the exit status alone. -/
theorem run_translation_command_within_limits (decode : List Nat → String)
    (command : List String) (proc : ProcBehavior) (hc : command ≠ [])
    (hwf1 : ∀ c ∈ proc.stdout_chunks, c ≠ [])
    (hwf2 : ∀ c ∈ proc.stderr_chunks, c ≠ [])
    (h1 : totalBytes proc.stdout_chunks ≤ MAX_TRANSLATION_STDOUT_BYTES)
    (h2 : totalBytes proc.stderr_chunks ≤ MAX_TRANSLATION_STDERR_BYTES) :
    run_translation_command decode command proc =
      if proc.exit_code ≠ some 0 then
        .error (.nonZeroExit proc.exit_code
          (preview_bytes decode proc.stderr_chunks.flatten)
          (preview_bytes decode proc.stdout_chunks.flatten))
      else .ok ⟨proc.stdout_chunks.flatten⟩ := by
  cases command with
  | nil => exact absurd rfl hc
  | cons a l =>
    unfold run_translation_command
    rw [read_to_end_limited_ok proc.stdout_chunks "stdout" MAX_TRANSLATION_STDOUT_BYTES hwf1 h1,
      read_to_end_limited_ok proc.stderr_chunks "stderr" MAX_TRANSLATION_STDERR_BYTES hwf2 h2]

/-- A one-chunk stream carries exactly the chunk's bytes. -/
theorem totalBytes_singleton (l : List Nat) : totalBytes [l] = l.length := by
  simp [totalBytes]

/-- An over-ceiling stdout makes the runner fail with the stdout
ceiling, whatever the stderr stream and the exit status are. -/
theorem run_stdout_over (decode : List Nat → String) (command : List String)
    (proc : ProcBehavior) (hc : command ≠ [])
    (hwf1 : ∀ c ∈ proc.stdout_chunks, c ≠ [])
    (hover : MAX_TRANSLATION_STDOUT_BYTES < totalBytes proc.stdout_chunks) :
    run_translation_command decode command proc =
      .error (.outputTooLarge "stdout" MAX_TRANSLATION_STDOUT_BYTES) := by
  cases command with
  | nil => exact absurd rfl hc
  | cons a l =>
    unfold run_translation_command
    rw [read_to_end_limited_over proc.stdout_chunks "stdout"
      MAX_TRANSLATION_STDOUT_BYTES hwf1 hover]

/-- With stdout within its ceiling, an over-ceiling stderr makes the
runner fail with the stderr ceiling, whatever the exit status is. -/
theorem run_stderr_over (decode : List Nat → String) (command : List String)
    (proc : ProcBehavior) (hc : command ≠ [])
    (hwf1 : ∀ c ∈ proc.stdout_chunks, c ≠ [])
    (hwf2 : ∀ c ∈ proc.stderr_chunks, c ≠ [])
    (h1 : totalBytes proc.stdout_chunks ≤ MAX_TRANSLATION_STDOUT_BYTES)
    (hover : MAX_TRANSLATION_STDERR_BYTES < totalBytes proc.stderr_chunks) :
    run_translation_command decode command proc =
      .error (.outputTooLarge "stderr" MAX_TRANSLATION_STDERR_BYTES) := by
  cases command with
  | nil => exact absurd rfl hc
  | cons a l =>
    unfold run_translation_command
    rw [read_to_end_limited_ok proc.stdout_chunks "stdout"
        MAX_TRANSLATION_STDOUT_BYTES hwf1 h1,
      read_to_end_limited_over proc.stderr_chunks "stderr"
        MAX_TRANSLATION_STDERR_BYTES hwf2 hover]

/-- C6: Output ceilings. A stream whose bytes would exceed its ceiling
makes `read_to_end_limited` fail `OutputTooLarge` naming that stream
and its limit, and conversely never fails that way at or under the
ceiling; at the runner level the stdout ceiling (4 MiB) and the stderr
ceiling (1 MiB) each trigger independently of the other stream's size
and of the exit status, and within both ceilings `OutputTooLarge` is
never produced. -/
theorem output_ceilings :
    (∀ (chunks : List (List Nat)) (stream : String) (limit : Nat),
        (∀ c ∈ chunks, c ≠ []) →
        (read_to_end_limited chunks stream limit =
            .error (.outputTooLarge stream limit) ↔
          limit < totalBytes chunks)) ∧
    (∀ (decode : List Nat → String) (command : List String) (proc : ProcBehavior),
        command ≠ [] →
        (∀ c ∈ proc.stdout_chunks, c ≠ []) →
        MAX_TRANSLATION_STDOUT_BYTES < totalBytes proc.stdout_chunks →
        run_translation_command decode command proc =
          .error (.outputTooLarge "stdout" MAX_TRANSLATION_STDOUT_BYTES)) ∧
    (∀ (decode : List Nat → String) (command : List String) (proc : ProcBehavior),
        command ≠ [] →
        (∀ c ∈ proc.stdout_chunks, c ≠ []) →
        (∀ c ∈ proc.stderr_chunks, c ≠ []) →
        totalBytes proc.stdout_chunks ≤ MAX_TRANSLATION_STDOUT_BYTES →
        MAX_TRANSLATION_STDERR_BYTES < totalBytes proc.stderr_chunks →
        run_translation_command decode command proc =
          .error (.outputTooLarge "stderr" MAX_TRANSLATION_STDERR_BYTES)) ∧
    (∀ (decode : List Nat → String) (command : List String) (proc : ProcBehavior)
        (stream : String) (limit : Nat),
        (∀ c ∈ proc.stdout_chunks, c ≠ []) →
        (∀ c ∈ proc.stderr_chunks, c ≠ []) →
        totalBytes proc.stdout_chunks ≤ MAX_TRANSLATION_STDOUT_BYTES →
        totalBytes proc.stderr_chunks ≤ MAX_TRANSLATION_STDERR_BYTES →
        run_translation_command decode command proc ≠
          .error (.outputTooLarge stream limit)) := by
  refine ⟨?_, ?_, ?_, ?_⟩
  · intro chunks stream limit hwf
    constructor
    · intro h
      by_contra hnot
      rw [read_to_end_limited_ok chunks stream limit hwf (Nat.not_lt.mp hnot)] at h
      exact absurd h (by simp)
    · intro h
      exact read_to_end_limited_over chunks stream limit hwf h
  · intro decode command proc hc hwf1 hover
    exact run_stdout_over decode command proc hc hwf1 hover
  · intro decode command proc hc hwf1 hwf2 h1 hover
    exact run_stderr_over decode command proc hc hwf1 hwf2 h1 hover
  · intro decode command proc stream limit hwf1 hwf2 h1 h2
    cases command with
    | nil => simp [run_translation_command]
    | cons a l =>
      rw [run_translation_command_within_limits decode (a :: l) proc
        (by simp) hwf1 hwf2 h1 h2]
      split <;> simp

/-- Witness for C6: a 1-byte limit with a 2-byte stream overflows; the
runner reports the stderr ceiling independently of a zero exit code. -/
theorem output_ceilings_witness :
    (read_to_end_limited [[7, 8]] "stdout" 1 =
        .error (.outputTooLarge "stdout" 1) ↔
      1 < totalBytes [[7, 8]]) ∧
    run_translation_command (fun _ => "") ["sh"]
        ⟨[[1]], [List.replicate (1024 * 1024 + 1) 0], some 0⟩ =
      .error (.outputTooLarge "stderr" MAX_TRANSLATION_STDERR_BYTES) := by
  constructor
  · exact output_ceilings.1 [[7, 8]] "stdout" 1 (by decide)
  · refine output_ceilings.2.2.1 (fun _ => "") ["sh"]
      ⟨[[1]], [List.replicate (1024 * 1024 + 1) 0], some 0⟩
      (by simp) (by decide) ?_ ?_ ?_
    · intro c hc
      simp only [List.mem_singleton] at hc
      subst hc
      intro h
      have hlen := congrArg List.length h
      rw [List.length_replicate] at hlen
      simp only [List.length_nil] at hlen
      omega
    · show totalBytes [[1]] ≤ MAX_TRANSLATION_STDOUT_BYTES
      rw [totalBytes_singleton]
      norm_num [MAX_TRANSLATION_STDOUT_BYTES]
    · show MAX_TRANSLATION_STDERR_BYTES <
        totalBytes [List.replicate (1024 * 1024 + 1) 0]
      rw [totalBytes_singleton, List.length_replicate]
      norm_num [MAX_TRANSLATION_STDERR_BYTES]

/-- Closed form of the preview loop: the whole character list when it
fits the budget, otherwise the first `n` characters with one appended
ellipsis. -/
theorem previewTake_closed : ∀ (cs : List Char) (n : Nat),
    previewTake n cs = if cs.length ≤ n then cs else cs.take n ++ ['…'] := by
  intro cs
  induction cs with
  | nil => intro n; simp [previewTake]
  | cons c rest ih =>
    intro n
    cases n with
    | zero => simp [previewTake]
    | succ m =>
      rw [previewTake, ih m]
      by_cases h : rest.length ≤ m
      · simp [h, Nat.succ_le_succ h]
      · have h2 : ¬ rest.length + 1 ≤ m + 1 := by omega
        simp [h, h2]

/-- C8: Non-zero exit reporting. A child that exits non-zero within the
deadline and within both ceilings makes the runner fail `NonZeroExit`
carrying the exit code and previews of both streams; and each preview
is the (UTF-8-lossy decoded) stream trimmed of surrounding whitespace,
cut to at most 300 characters, with an ellipsis marker appended exactly
when the trimmed text exceeds 300 characters. -/
theorem non_zero_exit_reporting :
    (∀ (decode : List Nat → String) (command : List String) (proc : ProcBehavior),
        command ≠ [] →
        (∀ c ∈ proc.stdout_chunks, c ≠ []) →
        (∀ c ∈ proc.stderr_chunks, c ≠ []) →
        totalBytes proc.stdout_chunks ≤ MAX_TRANSLATION_STDOUT_BYTES →
        totalBytes proc.stderr_chunks ≤ MAX_TRANSLATION_STDERR_BYTES →
        proc.exit_code ≠ some 0 →
        run_translation_command decode command proc =
          .error (.nonZeroExit proc.exit_code
            (preview_bytes decode proc.stderr_chunks.flatten)
            (preview_bytes decode proc.stdout_chunks.flatten))) ∧
    (∀ (decode : List Nat → String) (bytes : List Nat),
        preview_bytes decode bytes =
          if (trimChars (decode bytes).data).length ≤ PREVIEW_MAX_CHARS then
            String.mk (trimChars (decode bytes).data)
          else
            String.mk ((trimChars (decode bytes).data).take PREVIEW_MAX_CHARS ++ ['…'])) := by
  constructor
  · intro decode command proc hc hwf1 hwf2 h1 h2 hexit
    rw [run_translation_command_within_limits decode command proc hc hwf1 hwf2 h1 h2]
    simp [hexit]
  · intro decode bytes
    unfold preview_bytes previewString
    rw [previewTake_closed]
    split <;> rfl

/-- Witness for C8: exit code 2 with tiny streams reports `NonZeroExit`
with both previews, and the preview of a short string is its trim. -/
theorem non_zero_exit_reporting_witness :
    run_translation_command (fun _ => " boom ") ["sh"] ⟨[[1]], [[2]], some 2⟩ =
      .error (.nonZeroExit (some 2)
        (preview_bytes (fun _ => " boom ") (([[2]] : List (List Nat)).flatten))
        (preview_bytes (fun _ => " boom ") (([[1]] : List (List Nat)).flatten))) ∧
    preview_bytes (fun _ => " boom ") [2] =
      (if (trimChars (" boom ").data).length ≤ PREVIEW_MAX_CHARS then
        String.mk (trimChars (" boom ").data)
      else
        String.mk ((trimChars (" boom ").data).take PREVIEW_MAX_CHARS ++ ['…'])) := by
  constructor
  · exact non_zero_exit_reporting.1 (fun _ => " boom ") ["sh"] ⟨[[1]], [[2]], some 2⟩
      (by simp) (by decide) (by decide) (by decide) (by decide) (by decide)
  · exact non_zero_exit_reporting.2 (fun _ => " boom ") [2]

/-- Counterexample to the unrestricted reading of C6: when both streams
exceed their ceilings, the runner reports the stdout ceiling (stdout is
joined first), so an over-ceiling stderr does not get named when stdout
is over its own ceiling too — the failure for the stderr stream is not
independent of the size of the stdout stream. -/
theorem output_ceilings_counterexample :
    MAX_TRANSLATION_STDERR_BYTES <
      totalBytes [List.replicate (1024 * 1024 + 1) 0] ∧
    run_translation_command (fun _ => "") ["sh"]
        ⟨[List.replicate (4 * 1024 * 1024 + 1) 0],
         [List.replicate (1024 * 1024 + 1) 0], some 0⟩ =
      .error (.outputTooLarge "stdout" MAX_TRANSLATION_STDOUT_BYTES) ∧
    run_translation_command (fun _ => "") ["sh"]
        ⟨[List.replicate (4 * 1024 * 1024 + 1) 0],
         [List.replicate (1024 * 1024 + 1) 0], some 0⟩ ≠
      .error (.outputTooLarge "stderr" MAX_TRANSLATION_STDERR_BYTES) := by
  have hover : MAX_TRANSLATION_STDOUT_BYTES <
      totalBytes [List.replicate (4 * 1024 * 1024 + 1) 0] := by
    rw [totalBytes_singleton, List.length_replicate]
    norm_num [MAX_TRANSLATION_STDOUT_BYTES]
  have herr : MAX_TRANSLATION_STDERR_BYTES <
      totalBytes [List.replicate (1024 * 1024 + 1) 0] := by
    rw [totalBytes_singleton, List.length_replicate]
    norm_num [MAX_TRANSLATION_STDERR_BYTES]
  have hwf : ∀ c ∈ [List.replicate (4 * 1024 * 1024 + 1) (0 : Nat)], c ≠ [] := by
    intro c hc
    simp only [List.mem_singleton] at hc
    subst hc
    intro h
    have hlen := congrArg List.length h
    rw [List.length_replicate] at hlen
    simp only [List.length_nil] at hlen
    omega
  have hrun := run_stdout_over (fun _ => "") ["sh"]
    ⟨[List.replicate (4 * 1024 * 1024 + 1) 0],
     [List.replicate (1024 * 1024 + 1) 0], some 0⟩
    (by simp) hwf hover
  refine ⟨herr, hrun, ?_⟩
  rw [hrun]
  simp

/-- C7: Response validation. When the runner succeeds, `translate_text`
fails `InvalidJson` with a preview of stdout exactly when stdout does
not deserialize; fails `SchemaVersionMismatch` with expected version 1
and the actual version exactly when it deserializes to a version other
than 1; and fails `EmptyTranslation` exactly when the deserialized text
is empty after trimming. -/
theorem response_validation (decode : List Nat → String)
    (parseResponse : List Nat → Option TranslationResponse)
    (config : AgentReasoningTranslationConfig) (kind : TranslationKind)
    (text : String) (proc : ProcBehavior) (output : CommandOutput)
    (hc : config.command.isEmpty = false)
    (hr : run_translation_command decode config.command proc = .ok output) :
    ((translate_text decode parseResponse config kind text proc =
        .error (.invalidJson (preview_bytes decode output.stdout))) ↔
      parseResponse output.stdout = none) ∧
    (∀ a, (translate_text decode parseResponse config kind text proc =
        .error (.schemaVersionMismatch TRANSLATION_SCHEMA_VERSION a)) ↔
      ∃ r, parseResponse output.stdout = some r ∧ r.schema_version = a ∧
        a ≠ TRANSLATION_SCHEMA_VERSION) ∧
    ((translate_text decode parseResponse config kind text proc =
        .error .emptyTranslation) ↔
      ∃ r, parseResponse output.stdout = some r ∧
        r.schema_version = TRANSLATION_SCHEMA_VERSION ∧ strTrim r.text = "") := by
  cases hp : parseResponse output.stdout with
  | none =>
    have htr : translate_text decode parseResponse config kind text proc =
        .error (.invalidJson (preview_bytes decode output.stdout)) := by
      unfold translate_text
      rw [hr]
      simp [hc, hp]
    refine ⟨by simp [htr, hp], fun a => by simp [htr, hp], by simp [htr, hp]⟩
  | some r =>
    by_cases hv : r.schema_version = TRANSLATION_SCHEMA_VERSION
    · by_cases he : strTrim r.text = ""
      · have htr : translate_text decode parseResponse config kind text proc =
            .error .emptyTranslation := by
          unfold translate_text
          rw [hr]
          simp [hc, hp, hv, he]
        refine ⟨by simp [htr], fun a => ?_, ?_⟩
        · constructor
          · intro h
            rw [htr] at h
            exact absurd h (by simp)
          · rintro ⟨r2, hr2, hva, hne⟩
            cases Option.some_inj.mp hr2
            exact absurd (hva.symm.trans hv) hne
        · constructor
          · intro _
            exact ⟨r, rfl, hv, he⟩
          · intro _
            exact htr
      · have htr : translate_text decode parseResponse config kind text proc =
            .ok (strTrim r.text) := by
          unfold translate_text
          rw [hr]
          simp [hc, hp, hv, he]
        refine ⟨by simp [htr], fun a => ?_, ?_⟩
        · constructor
          · intro h
            rw [htr] at h
            exact absurd h (by simp)
          · rintro ⟨r2, hr2, hva, hne⟩
            cases Option.some_inj.mp hr2
            exact absurd (hva.symm.trans hv) hne
        · constructor
          · intro h
            rw [htr] at h
            exact absurd h (by simp)
          · rintro ⟨r2, hr2, hva, hee⟩
            cases Option.some_inj.mp hr2
            exact absurd hee he
    · have htr : translate_text decode parseResponse config kind text proc =
          .error (.schemaVersionMismatch TRANSLATION_SCHEMA_VERSION r.schema_version) := by
        unfold translate_text
        rw [hr]
        simp [hc, hp, hv]
      refine ⟨by simp [htr], fun a => ?_, ?_⟩
      · rw [htr]
        constructor
        · intro h
          have hinj : r.schema_version = a := by
            injection h with h1
            injection h1 with h2 h3
          refine ⟨r, rfl, hinj, fun ha => hv (hinj.trans ha)⟩
        · rintro ⟨r2, hr2, hva, hne⟩
          cases Option.some_inj.mp hr2
          rw [hva]
      · constructor
        · intro h
          rw [htr] at h
          exact absurd h (by simp)
        · rintro ⟨r2, hr2, hva, hne⟩
          cases Option.some_inj.mp hr2
          exact absurd hva hv

/-- Witness for C7 with a parser that rejects everything: the service
fails `InvalidJson` carrying the stdout preview. -/
theorem response_validation_witness :
    ((translate_text (fun _ => "junk") (fun _ => none) sampleConfig
        TranslationKind.agentReasoningBody "text" ⟨[[1]], [], some 0⟩ =
      .error (.invalidJson (preview_bytes (fun _ => "junk")
        (CommandOutput.stdout ⟨[1]⟩)))) ↔
      (fun _ => (none : Option TranslationResponse)) (CommandOutput.stdout ⟨[1]⟩) = none) := by
  have h := response_validation (fun _ => "junk") (fun _ => none) sampleConfig
    TranslationKind.agentReasoningBody "text" ⟨[[1]], [], some 0⟩ ⟨[1]⟩
    (by decide)
    (by rw [run_translation_command_within_limits (fun _ => "junk")
          sampleConfig.command ⟨[[1]], [], some 0⟩ (by decide) (by decide)
          (by decide) (by decide) (by decide)]
        simp)
  exact h.1

/-- C2: Success path. With a non-empty command, an in-deadline,
in-ceiling run whose process exits 0, and a stdout that parses to a
schema-version-1 response with text nonempty after trimming,
`translate_text` returns exactly the trimmed response text. -/
theorem translate_text_success (decode : List Nat → String)
    (parseResponse : List Nat → Option TranslationResponse)
    (config : AgentReasoningTranslationConfig) (kind : TranslationKind)
    (text : String) (proc : ProcBehavior) (resp : TranslationResponse)
    (hc : config.command.isEmpty = false)
    (hwf1 : ∀ c ∈ proc.stdout_chunks, c ≠ [])
    (hwf2 : ∀ c ∈ proc.stderr_chunks, c ≠ [])
    (h1 : totalBytes proc.stdout_chunks ≤ MAX_TRANSLATION_STDOUT_BYTES)
    (h2 : totalBytes proc.stderr_chunks ≤ MAX_TRANSLATION_STDERR_BYTES)
    (hexit : proc.exit_code = some 0)
    (hparse : parseResponse proc.stdout_chunks.flatten = some resp)
    (hver : resp.schema_version = TRANSLATION_SCHEMA_VERSION)
    (hne : strTrim resp.text ≠ "") :
    translate_text decode parseResponse config kind text proc =
      .ok (strTrim resp.text) := by
  have hcn : config.command ≠ [] := by
    intro h
    rw [h] at hc
    simp at hc
  have hrun := run_translation_command_within_limits decode config.command proc
    hcn hwf1 hwf2 h1 h2
  rw [hexit] at hrun
  simp only [ne_eq, not_true_eq_false, if_false] at hrun
  unfold translate_text
  rw [hrun]
  simp [hc, hparse, hver, hne]

/-- Witness for C2: a process echoing a version-1 response with padded
text yields the trimmed text. -/
theorem translate_text_success_witness :
    translate_text (fun _ => "") (fun _ => some ⟨1, " 你好 "⟩) sampleConfig
        TranslationKind.agentReasoningBody "**Plan** body" ⟨[[1, 2]], [], some 0⟩ =
      .ok (strTrim " 你好 ") :=
  translate_text_success (fun _ => "") (fun _ => some ⟨1, " 你好 "⟩) sampleConfig
    TranslationKind.agentReasoningBody "**Plan** body" ⟨[[1, 2]], [], some 0⟩
    ⟨1, " 你好 "⟩ (by decide) (by decide) (by decide) (by decide) (by decide)
    (by decide) (by decide) (by decide) (by decide)

end Codex
